import Mathlib

/-!
# Receipt field reconciliation engine: a shallow embedding

This file embeds the receipt-normalization core of the repository
(`frontend/src/lib/receiptNormalizer.ts`, `frontend/src/lib/receiptDraftStore.ts`,
the in-memory receipt list cache, and the Review page's merge/save logic) into
Lean 4 and proves properties of the embedded definitions.

Modelling conventions:
* JSON-ish runtime values are the inductive `JValue`; JavaScript `undefined`
  is represented by `Option JValue` being `none` (absence), never by a
  constructor, since JSON payloads cannot contain `undefined`.
* JavaScript numbers are modelled as rationals (`Frac`, an unreduced
  numerator/denominator pair compared by cross-multiplication, so every
  arithmetic step is plain `Int`/`Nat` computation); the `NaN`/`Infinity`
  corner of `isNaN` checks collapses (JSON numbers are finite decimals).
* JavaScript objects are insertion-ordered association lists with unique keys;
  spread syntax `\x7b...a, k: v\x7d` updates an existing key in place or appends.
* Thrown exceptions become `Except String`.
-/

set_option autoImplicit false

namespace Receipts

/-- A rational number as an unreduced numerator/denominator pair: the model
of finite JavaScript numbers.  All denominators produced below are positive
(`1` or a power of ten), and comparisons cross-multiply, so value semantics
agree with ordinary rational arithmetic while staying kernel-computable. -/
structure Frac where
  num : Int
  den : Nat
deriving Repr, DecidableEq

/-- Embed a natural number. -/
def Frac.ofNat (n : Nat) : Frac := ⟨n, 1⟩

/-- Embed an integer. -/
def Frac.ofInt (n : Int) : Frac := ⟨n, 1⟩

/-- Addition. -/
def Frac.add (a b : Frac) : Frac := ⟨a.num * b.den + b.num * a.den, a.den * b.den⟩

/-- Multiplication. -/
def Frac.mul (a b : Frac) : Frac := ⟨a.num * b.num, a.den * b.den⟩

/-- Division (the divisors that occur are positive powers of ten). -/
def Frac.div (a b : Frac) : Frac :=
  if 0 ≤ b.num then ⟨a.num * b.den, a.den * b.num.toNat⟩
  else ⟨-(a.num * b.den), a.den * (-b.num).toNat⟩

/-- Value equality (JavaScript `===` on numbers). -/
def Frac.beq (a b : Frac) : Bool := a.num * b.den == b.num * a.den

/-- Value order (JavaScript `<=` on numbers, denominators positive). -/
def Frac.ble (a b : Frac) : Bool := a.num * b.den ≤ b.num * a.den

/-- `10 ^ k` as a fraction. -/
def Frac.pow10 (k : Nat) : Frac := ⟨(10 ^ k : Nat), 1⟩

/-- A JSON-like runtime value (the payload trees the normalizer consumes). -/
inductive JValue where
  | null : JValue
  | bool (b : Bool) : JValue
  | num (q : Frac) : JValue
  | str (s : String) : JValue
  | obj (fields : List (String × JValue)) : JValue
  | arr (items : List JValue) : JValue
deriving Repr

/-- Integer-valued JSON number. -/
def jnum (n : Int) : JValue := JValue.num (Frac.ofInt n)

mutual
/-- Structural equality on `JValue` (used to model the one reference-identity
check of the source, `extractedFields !== obj`; in acyclic JSON trees a
referentially identical pair is structurally equal, and probing a structurally
equal copy of the root yields the same lookups, so behaviour agrees). -/
def jeqb : JValue → JValue → Bool
  | JValue.null, JValue.null => true
  | JValue.bool a, JValue.bool b => a == b
  | JValue.num a, JValue.num b => Frac.beq a b
  | JValue.str a, JValue.str b => a == b
  | JValue.obj a, JValue.obj b => jeqbFields a b
  | JValue.arr a, JValue.arr b => jeqbItems a b
  | _, _ => false

/-- Structural equality on object field lists. -/
def jeqbFields : List (String × JValue) → List (String × JValue) → Bool
  | [], [] => true
  | (k1, v1) :: r1, (k2, v2) :: r2 => k1 == k2 && jeqb v1 v2 && jeqbFields r1 r2
  | _, _ => false

/-- Structural equality on array item lists. -/
def jeqbItems : List JValue → List JValue → Bool
  | [], [] => true
  | v1 :: r1, v2 :: r2 => jeqb v1 v2 && jeqbItems r1 r2
  | _, _ => false
end

/-- A JavaScript object: an insertion-ordered association list. -/
abbrev JObj := List (String × JValue)

/-- First-match association-list lookup (JavaScript property read). -/
def alookup {β : Type} : List (String × β) → String → Option β
  | [], _ => none
  | (k2, v) :: rest, k => if k2 = k then some v else alookup rest k

/-- JavaScript object update (`\x7b...m, k: v\x7d` / `Map.set`): replaces an
existing key in place, otherwise appends the new key at the end. -/
def assocSet {β : Type} : List (String × β) → String → β → List (String × β)
  | [], k, v => [(k, v)]
  | (k2, w) :: rest, k, v =>
    if k2 = k then (k, v) :: rest else (k2, w) :: assocSet rest k v

/-- Key-presence test (`k in obj`). -/
def hasKey {β : Type} : List (String × β) → String → Bool
  | [], _ => false
  | (k2, _) :: rest, k => if k2 = k then true else hasKey rest k

/-- JavaScript `delete obj[k]`. -/
def eraseKey {β : Type} : List (String × β) → String → List (String × β)
  | [], _ => []
  | (k2, w) :: rest, k =>
    if k2 = k then eraseKey rest k else (k2, w) :: eraseKey rest k

/-- Object spread `\x7b...a, ...b\x7d`: overlay every entry of `b` onto `a`. -/
def spreadPair {β : Type} (a b : List (String × β)) : List (String × β) :=
  b.foldl (fun m e => assocSet m e.1 e.2) a

/-- JavaScript truthiness of a `JValue` (absence/`undefined` is handled by
`Option` at call sites). -/
def jtruthy : JValue → Bool
  | JValue.null => false
  | JValue.bool b => b
  | JValue.num q => if q.num = 0 then false else true
  | JValue.str s => if s = "" then false else true
  | JValue.obj _ => true
  | JValue.arr _ => true

/-- `a || b` on a possibly-`undefined` left operand. -/
def jor (a : Option JValue) (b : JValue) : JValue :=
  match a with
  | some v => if jtruthy v then v else b
  | none => b

/-- Digit span: maximal leading run of decimal digits. -/
def spanDigits (cs : List Char) : List Char × List Char :=
  (cs.takeWhile Char.isDigit, cs.dropWhile Char.isDigit)

/-- Numeric value of a digit string. -/
def digitsVal (ds : List Char) : Nat :=
  ds.foldl (fun a c => a * 10 + (c.toNat - 48)) 0

/-- The natural number denoted by a key string, when the key is a canonical
decimal numeral (a JavaScript array's own index keys). -/
def natKeyOf (key : String) : Option Nat :=
  match key.data with
  | [] => none
  | cs =>
    if cs.all Char.isDigit then
      let i := digitsVal cs
      if toString i = key then some i else none
    else none

/-- Single property step of the path walk in `getNestedValue`:
`value && typeof value === 'object' && key in value ? value[key] : undefined`.
Arrays expose their index keys and `length`, objects their fields; primitives
and `null` have no readable keys under the guard. -/
def jGet : JValue → String → Option JValue
  | JValue.obj fields, key => alookup fields key
  | JValue.arr items, key =>
    if key = "length" then some (JValue.num (Frac.ofNat items.length))
    else
      match natKeyOf key with
      | some i => items.get? i
      | none => none
  | _, _ => none

/-- Walk a dotted path key-by-key; any failed step yields `undefined`
(source: the inner `for (const key of keys)` loop of `getNestedValue`). -/
def walkPath : JValue → List String → Option JValue
  | v, [] => some v
  | v, k :: ks =>
    match jGet v k with
    | some w => walkPath w ks
    | none => none

/-- `path.split('.')` (structural model of the JavaScript string split). -/
def splitDotAux (acc : List Char) : List Char → List String
  | [] => [String.mk acc.reverse]
  | c :: cs =>
    if c = '.' then String.mk acc.reverse :: splitDotAux [] cs
    else splitDotAux (c :: acc) cs

/-- `path.split('.')`. -/
def splitDot (s : String) : List String :=
  splitDotAux [] s.data

/-- `getNestedValue(obj, ...paths)`: try each dotted path in order and return
the first walked value that is neither `undefined` nor `null`. -/
def getNestedValue (o : JValue) : List String → Option JValue
  | [] => none
  | p :: ps =>
    match walkPath o (splitDot p) with
    | some JValue.null => getNestedValue o ps
    | some v => some v
    | none => getNestedValue o ps

example : getNestedValue (JValue.obj [("a", JValue.obj [("b", jnum 3)])]) ["a.b"] =
    some (jnum 3) := rfl

example : getNestedValue (JValue.obj [("a", JValue.null)]) ["a", "b"] = none := rfl

/-! ## Value parsers (`parseNumber`, `formatDate`, `parseVatRate`) -/

/-- `value.replace(',', '.')` — JavaScript `replace` with a string pattern
replaces only the first occurrence. -/
def replaceFirstCommaAux : List Char → List Char
  | [] => []
  | c :: cs => if c = ',' then '.' :: cs else c :: replaceFirstCommaAux cs

/-- `value.replace(',', '.')`. -/
def replaceFirstComma (s : String) : String :=
  String.mk (replaceFirstCommaAux s.data)

/-- JavaScript `parseFloat`: skip leading whitespace, optional sign, decimal
digits with optional fraction and exponent; `none` models `NaN` (no digits in
the leading prefix).  The non-finite literals (`Infinity`) fall outside the
rational model; JSON payload numbers are finite decimals. -/
def jsParseFloat (s : String) : Option Frac :=
  let cs0 := s.data.dropWhile Char.isWhitespace
  let signAndRest : Bool × List Char :=
    match cs0 with
    | '-' :: rest => (true, rest)
    | '+' :: rest => (false, rest)
    | _ => (false, cs0)
  let negative := signAndRest.1
  let cs1 := signAndRest.2
  let intPart := (spanDigits cs1).1
  let cs2 := (spanDigits cs1).2
  let fracAndRest : List Char × List Char :=
    match cs2 with
    | '.' :: rest => spanDigits rest
    | _ => ([], cs2)
  let fracPart := fracAndRest.1
  let cs3 := fracAndRest.2
  if intPart.isEmpty && fracPart.isEmpty then none
  else
    let mantissa : Frac :=
      Frac.add (Frac.ofNat (digitsVal intPart))
        (Frac.div (Frac.ofNat (digitsVal fracPart)) (Frac.pow10 fracPart.length))
    let value : Frac :=
      match cs3 with
      | 'e' :: rest => applyExponent mantissa rest
      | 'E' :: rest => applyExponent mantissa rest
      | _ => mantissa
    some (if negative then Frac.mul (Frac.ofInt (-1)) value else value)
where
  /-- Parse an optional-signed exponent suffix; a malformed exponent is
  ignored (`parseFloat` takes the longest valid literal prefix). -/
  applyExponent (mantissa : Frac) (rest : List Char) : Frac :=
    let signedRest : Bool × List Char :=
      match rest with
      | '-' :: r => (true, r)
      | '+' :: r => (false, r)
      | _ => (false, rest)
    let eds := (spanDigits signedRest.2).1
    if eds.isEmpty then mantissa
    else if signedRest.1 then Frac.div mantissa (Frac.pow10 (digitsVal eds))
    else Frac.mul mantissa (Frac.pow10 (digitsVal eds))

example : (jsParseFloat "12.50").map (fun q => Frac.beq q ⟨25, 2⟩) = some true := by decide
example : jsParseFloat "abc" = none := by decide

/-- `parseNumber`: `null`/`undefined` give `null`; numbers pass through
(`NaN` is outside the rational model); strings go through comma-to-period
replacement and `parseFloat`; all other values give `null`. -/
def parseNumber (v : Option JValue) : Option Frac :=
  match v with
  | none => none
  | some JValue.null => none
  | some (JValue.num q) => some q
  | some (JValue.str s) => jsParseFloat (replaceFirstComma s)
  | some _ => none

example : (parseNumber (some (JValue.str "12,50"))).map (fun q => Frac.beq q ⟨25, 2⟩) =
    some true := by decide
example : parseNumber (some (JValue.str "abc")) = none := by decide

/-- Match `^(\d\x7b1,2\x7d)SEP(\d\x7b1,2\x7d)SEP(\d\x7b4\x7d)$` returning the
day, month and year digit groups. -/
def matchDMY (s : String) (sep : Char) : Option (String × String × String) :=
  let cs := s.data
  let d := (spanDigits cs).1
  let rest1 := (spanDigits cs).2
  if d.length = 0 || decide (2 < d.length) then none
  else
    match rest1 with
    | c1 :: cs2 =>
      if c1 = sep then
        let m := (spanDigits cs2).1
        let rest2 := (spanDigits cs2).2
        if m.length = 0 || decide (2 < m.length) then none
        else
          match rest2 with
          | c2 :: cs3 =>
            if c2 = sep then
              let y := (spanDigits cs3).1
              let rest3 := (spanDigits cs3).2
              if y.length = 4 && rest3.isEmpty then
                some (String.mk d, String.mk m, String.mk y)
              else none
            else none
          | [] => none
      else none
    | [] => none

/-- `component.padStart(2, '0')` for day/month digit groups. -/
def pad2 (s : String) : String :=
  if s.length < 2 then "0" ++ s else s

/-- Test `^\d\x7b4\x7d-\d\x7b2\x7d-\d\x7b2\x7d$` (already-ISO calendar date). -/
def isIsoDate (s : String) : Bool :=
  match s.data with
  | [y1, y2, y3, y4, '-', m1, m2, '-', d1, d2] =>
    y1.isDigit && y2.isDigit && y3.isDigit && y4.isDigit &&
      m1.isDigit && m2.isDigit && d1.isDigit && d2.isDigit
  | _ => false

/-- The `new Date(value)` fallback of `formatDate`, modelled for ISO
date-time strings (`YYYY-MM-DDT...`), the one generic shape the backend
emits; other host-specific date formats are outside the model and parse to
an invalid date. -/
def jsGenericDateIso (s : String) : Option String :=
  match s.data with
  | y1 :: y2 :: y3 :: y4 :: '-' :: m1 :: m2 :: '-' :: d1 :: d2 :: 'T' :: _ =>
    if y1.isDigit && y2.isDigit && y3.isDigit && y4.isDigit &&
        m1.isDigit && m2.isDigit && d1.isDigit && d2.isDigit then
      some (String.mk [y1, y2, y3, y4, '-', m1, m2, '-', d1, d2])
    else none
  | _ => none

/-- `formatDate`: falsy values give `''`; strings try `DD-MM-YYYY`, then
`DD/MM/YYYY`, then already-ISO `YYYY-MM-DD`, then the generic date parse;
non-string truthy values give `''`. -/
def formatDate (v : Option JValue) : String :=
  match v with
  | none => ""
  | some jv =>
    if jtruthy jv then
      match jv with
      | JValue.str s =>
        match matchDMY s '-' with
        | some (d, m, y) => y ++ "-" ++ pad2 m ++ "-" ++ pad2 d
        | none =>
          match matchDMY s '/' with
          | some (d, m, y) => y ++ "-" ++ pad2 m ++ "-" ++ pad2 d
          | none =>
            if isIsoDate s then s
            else
              match jsGenericDateIso s with
              | some iso => iso
              | none => ""
      | _ => ""
    else ""

example : formatDate (some (JValue.str "14-11-2025")) = "2025-11-14" := rfl
example : formatDate (some (JValue.str "2025-11-14")) = "2025-11-14" := rfl
example : formatDate (some (JValue.str "not-a-date")) = "" := rfl
example : formatDate (some (JValue.str "3/4/2024")) = "2024-04-03" := rfl

/-- `value.trim()` (structural model of the JavaScript whitespace trim). -/
def jsTrim (s : String) : String :=
  String.mk (((s.data.dropWhile Char.isWhitespace).reverse.dropWhile Char.isWhitespace).reverse)

/-- Test `^\d+$` — a non-empty all-digit string (a "clean" integer string). -/
def isCleanInt (s : String) : Bool :=
  !s.data.isEmpty && s.data.all Char.isDigit

/-- First match of `(\d+(?:\.\d+)?)\s*%?` in a string: the leftmost maximal
digit run, extended by a fractional part when a period is followed by at
least one digit; the matched token's `parseFloat` value. -/
def extractNumber : List Char → Option Frac
  | [] => none
  | c :: cs =>
    if c.isDigit then
      let ds := (spanDigits (c :: cs)).1
      let rest := (spanDigits (c :: cs)).2
      let fs : List Char :=
        match rest with
        | '.' :: r => (spanDigits r).1
        | _ => []
      some (Frac.add (Frac.ofNat (digitsVal ds))
        (Frac.div (Frac.ofNat (digitsVal fs)) (Frac.pow10 fs.length)))
    else extractNumber cs

/-- Snap an extracted rate to the nearest common bucket
(`rate <= 2 → "0"`, `<= 4.5 → "4"`, `<= 7 → "5"`, `<= 15 → "10"`, else `"22"`). -/
def vatBucket (rate : Frac) : String :=
  if Frac.ble rate (Frac.ofNat 2) then "0"
  else if Frac.ble rate ⟨9, 2⟩ then "4"
  else if Frac.ble rate (Frac.ofNat 7) then "5"
  else if Frac.ble rate (Frac.ofNat 15) then "10"
  else "22"

/-- JavaScript `String(number)`, for the decimal fractions that occur in
receipt payloads: integers print as integers; other fractions print their
exact decimal expansion when the denominator divides a power of ten (JSON
numbers), with a `/`-form fallback for rationals outside that range. -/
def jsNumToString (q : Frac) : String :=
  if q.den = 0 then "NaN"
  else if (q.num % (q.den : Int)) = 0 then toString (q.num / (q.den : Int))
  else
    match decimalDigits (q.num.natAbs % q.den) q.den 20 with
    | some ds => (if q.num < 0 then "-" else "") ++
        toString ((q.num.natAbs : Nat) / q.den) ++ "." ++ ds
    | none => toString q.num ++ "/" ++ toString q.den
where
  /-- Exact decimal expansion of `r / d` with at most `fuel` digits. -/
  decimalDigits (r d : Nat) (fuel : Nat) : Option String :=
    match fuel with
    | 0 => none
    | fuel + 1 =>
      let r10 := r * 10
      let digit := r10 / d
      let rest := r10 % d
      if rest = 0 then some (toString digit)
      else (decimalDigits rest d fuel).map (fun tail => toString digit ++ tail)

example : jsNumToString ⟨22, 1⟩ = "22" := by decide
example : jsNumToString ⟨9, 2⟩ = "4.5" := by decide

/-- `parseVatRate`: falsy values give `''`; numbers print via `String(...)`;
clean integer strings return trimmed as-is; otherwise the first numeric
token is extracted and bucketed; no token gives `''`. -/
def parseVatRate (v : Option JValue) : String :=
  match v with
  | none => ""
  | some jv =>
    if jtruthy jv then
      match jv with
      | JValue.num q => jsNumToString q
      | JValue.str s =>
        if isCleanInt (jsTrim s) then jsTrim s
        else
          match extractNumber s.data with
          | some rate => vatBucket rate
          | none => ""
      | _ => ""
    else ""

example : parseVatRate (some (JValue.str "A 22.00%")) = "22" := by decide
example : parseVatRate (some (JValue.str "3")) = "3" := by decide
example : parseVatRate (some (JValue.str "22")) = "22" := by decide
example : parseVatRate (some (JValue.str "4,5%")) = "4" := by decide
example : parseVatRate none = "" := by decide

/-! ## Response normalizer (`normalizeReceiptResponse`) -/

/-- `value === ''` (the only remaining emptiness test inside `getField`'s
loop; `undefined` and `null` are already filtered by `getNestedValue`). -/
def isEmptyStrVal : JValue → Bool
  | JValue.str s => if s = "" then true else false
  | _ => false

/-- The inner candidate-name loop shared by every source pass of `getField`:
probe each name in order and return the first value that is neither
`undefined`, `null` (both filtered inside `getNestedValue`) nor `''`. -/
def scanNames (source : JValue) : List String → Option JValue
  | [] => none
  | name :: rest =>
    match getNestedValue source [name] with
    | some v => if isEmptyStrVal v then scanNames source rest else some v
    | none => scanNames source rest

/-- One guarded source pass of `getField`
(`if (sectionFields) \x7b for (const name of allNames) ... \x7d`). -/
def sectionScan (src : Option JValue) (names : List String) : Option JValue :=
  match src with
  | some c => if jtruthy c then scanNames c names else none
  | none => none

/-- The confirmed/final section probe of `normalizeReceiptResponse`. -/
def confirmedFieldsOf (o : JValue) : Option JValue :=
  getNestedValue o ["confirmed", "final", "userConfirmed", "user_confirmed"]

/-- The draft/user-edited section probe of `normalizeReceiptResponse`. -/
def draftFieldsOf (o : JValue) : Option JValue :=
  getNestedValue o ["draft", "userDraft", "user_draft", "edited", "receipt", "receiptData",
    "receipt_data"]

/-- The extracted/OCR section of `normalizeReceiptResponse`:
`ocr.summary.fields`, else the first truthy of the fallback probes, else the
root object itself. -/
def extractedFieldsOf (o : JValue) : JValue :=
  jor (getNestedValue o ["ocr.summary.fields"])
    (jor (getNestedValue o ["extracted", "ocr.fields", "ocr", "ocrData", "ocrResult", "fields",
      "data", "artifacts.ocr", "artifacts.ocrData", "artifacts.extracted"]) o)

/-- `getField`: resolve a field by trying, in order, the confirmed section,
the draft section, the root object, and finally the extracted section (the
latter only when it is not the root itself — the source compares references,
modelled structurally by `jeqb`). -/
def getField (confirmedFields draftFields : Option JValue) (o extractedFields : JValue)
    (fieldName : String) (altNames : List String) : Option JValue :=
  let allNames := fieldName :: altNames
  match sectionScan confirmedFields allNames with
  | some v => some v
  | none =>
    match sectionScan draftFields allNames with
    | some v => some v
    | none =>
      match scanNames o allNames with
      | some v => some v
      | none =>
        if jtruthy extractedFields then
          if jeqb extractedFields o then none
          else scanNames extractedFields allNames
        else none

/-- `getField` with the sections as `normalizeReceiptResponse` derives them
from the (array-reduced) payload. -/
def getFieldIn (o : JValue) (fieldName : String) (altNames : List String) : Option JValue :=
  getField (confirmedFieldsOf o) (draftFieldsOf o) o (extractedFieldsOf o) fieldName altNames

/-- Alias list for `date`. -/
def dateAliases : List String :=
  ["date_raw", "receiptDate", "receipt_date", "transactionDate", "purchaseDate"]

/-- Alias list for `total`. -/
def totalAliases : List String :=
  ["total_raw", "total_amount", "amount", "totalAmount", "grandTotal"]

/-- Alias list for `payee`. -/
def payeeAliases : List String := ["vendor", "merchant", "store", "storeName"]

/-- Alias list for `vat`. -/
def vatAliases : List String := ["vat_amount", "tax", "tax_raw", "vatAmount", "taxAmount"]

/-- Alias list for `vatRate`. -/
def vatRateAliases : List String := ["vat_rate", "vat_rate_raw", "taxRate", "tax_rate"]

/-- Alias list for `category`. -/
def categoryAliases : List String := ["type", "expenseType", "expenseCategory"]

/-- Alias list for `notes`. -/
def notesAliases : List String := ["description", "memo", "comment"]

/-- The canonical record produced by `normalizeReceiptResponse`.  Fields the
TypeScript interface types as `string` hold whatever runtime value the `||`
default left in place, hence `JValue`-typed fields here. -/
structure NormalizedReceipt where
  id : JValue
  status : JValue
  imageUrl : Option JValue
  date : String
  total : Option Frac
  payee : JValue
  vat : Option Frac
  vatRate : String
  category : JValue
  notes : JValue
deriving Repr

/-- `s || fallback` for strings. -/
def strOrElse (s fallbackS : String) : String := if s = "" then fallbackS else s

/-- `value || undefined`. -/
def jorUndef (a : Option JValue) : Option JValue :=
  match a with
  | some v => if jtruthy v then some v else none
  | none => none

/-- Array responses are reduced by taking the first item (empty arrays pass
through unchanged). -/
def arrayFirst : JValue → JValue
  | JValue.arr (x :: _) => x
  | v => v

/-- `!data || typeof data !== 'object'` is false exactly for objects and
arrays (`typeof null` is `'object'` but `null` is falsy). -/
def objectLike : JValue → Bool
  | JValue.obj _ => true
  | JValue.arr _ => true
  | _ => false

/-- `normalizeReceiptResponse`: reduce array responses to their first item,
reject non-object payloads, then resolve every canonical field through
`getField` over the precedence chain and the per-field alias lists, applying
the value parsers and `||` defaults. -/
def normalizeReceiptResponse (response : JValue) : Except String NormalizedReceipt :=
  let data := arrayFirst response
  if objectLike data then
    Except.ok
      { id := jor (getNestedValue data ["id", "receiptId", "_id"]) (JValue.str "")
        status := jor (getNestedValue data ["status", "receiptStatus"]) (JValue.str "PENDING")
        imageUrl := jorUndef (getNestedValue data ["artifacts.processedUrl",
          "artifacts.processed_url", "artifacts.originalUrl", "artifacts.original_url",
          "imageUrl", "image_url", "url"])
        date := formatDate (getFieldIn data "date" dateAliases)
        total := parseNumber (getFieldIn data "total" totalAliases)
        payee := jor (getFieldIn data "payee" payeeAliases) (JValue.str "")
        vat := parseNumber (getFieldIn data "vat" vatAliases)
        vatRate := strOrElse (parseVatRate (getFieldIn data "vatRate" vatRateAliases)) "22"
        category := jor (getFieldIn data "category" categoryAliases) (JValue.str "General")
        notes := jor (getFieldIn data "notes" notesAliases) (JValue.str "") }
  else Except.error "Invalid receipt response"

example : (normalizeReceiptResponse (JValue.obj [("confirmed", JValue.obj [("payee",
    JValue.str "Acme")]), ("extracted", JValue.obj [("payee", JValue.str "Other")])])).map
    (fun r => r.payee) = Except.ok (JValue.str "Acme") := rfl

example : (normalizeReceiptResponse (JValue.str "nope")).isOk = false := rfl

/-! ## List snapshot cache (`receiptCache.ts`) -/

/-- The in-memory receipt list cache: receipt id → last-known row.  Source
rows are JavaScript objects; `Map` insertion order is the association-list
order.  (Row ids are strings in every reachable state, so the key type is
`String`.) -/
abbrev Cache := List (String × JObj)

/-- `getCachedReceipt`. -/
def getCachedReceipt (cache : Cache) (receiptId : String) : Option JObj :=
  alookup cache receiptId

/-- `updateCachedReceipt`: overlay the patch onto an existing entry
(`\x7b...existing, ...updates\x7d`); ids without an entry are left alone. -/
def updateCachedReceipt (cache : Cache) (receiptId : String) (updates : JObj) : Cache :=
  match alookup cache receiptId with
  | some existing => assocSet cache receiptId (spreadPair existing updates)
  | none => cache

/-! ## Local override store (`receiptDraftStore.ts`) -/

/-- The durable override store: receipt id → stored override patch.  The
`localStorage` JSON round-trip is modelled by keeping only the defined
fields of the written patch (JSON.stringify drops `undefined`-valued keys);
the corrupt-storage path collapses, as corrupt state reads as empty. -/
abbrev OverrideStore := List (String × JObj)

/-- `UpdateReceiptPayload` (`api.ts`): every field optional; `categoryId`
may also be `null` (the inner `Option`). -/
structure UpdateReceiptPayload where
  status : Option String := none
  payee : Option String := none
  date : Option String := none
  total : Option Frac := none
  vat : Option Frac := none
  vatRate : Option String := none
  category : Option String := none
  categoryId : Option (Option String) := none
  notes : Option String := none
  ynabExportedAt : Option String := none
deriving Repr

/-- Append a key when the optional value is defined. -/
def optEntry (k : String) (v : Option JValue) : JObj :=
  match v with
  | some w => [(k, w)]
  | none => []

/-- The override object `setDraftOverride` stores for a payload: the eight
draft fields, in source literal order, with `undefined`-valued keys dropped
by the JSON round-trip. -/
def overrideEntries (p : UpdateReceiptPayload) : JObj :=
  optEntry "status" (p.status.map JValue.str) ++
  optEntry "payee" (p.payee.map JValue.str) ++
  optEntry "date" (p.date.map JValue.str) ++
  optEntry "total" (p.total.map JValue.num) ++
  optEntry "vat" (p.vat.map JValue.num) ++
  optEntry "vatRate" (p.vatRate.map JValue.str) ++
  optEntry "category" (p.category.map JValue.str) ++
  optEntry "notes" (p.notes.map JValue.str)

/-- `getDraftOverride`. -/
def getDraftOverride (store : OverrideStore) (receiptId : String) : Option JObj :=
  alookup store receiptId

/-- `setDraftOverride`: `all[receiptId] = \x7b...eight fields...\x7d` — the
stored patch is replaced wholesale by a fresh object. -/
def setDraftOverride (store : OverrideStore) (receiptId : String)
    (payload : UpdateReceiptPayload) : OverrideStore :=
  assocSet store receiptId (overrideEntries payload)

/-- `clearDraftOverride`: delete the entry when present. -/
def clearDraftOverride (store : OverrideStore) (receiptId : String) : OverrideStore :=
  if hasKey store receiptId then eraseKey store receiptId else store

/-! ## Review page (`Review.tsx`): merge on load, stores on save -/

/-- Overlay one value onto both its canonical name and its backend alias
(`\x7b canonical: v, alias: v \x7d` spread onto the merged payload). -/
def overlayBoth (m : JObj) (canonicalKey aliasKey : String) (v : JValue) : JObj :=
  assocSet (assocSet m canonicalKey v) aliasKey v

/-- The merged raw payload `fetchReceipt` builds: start from the fresh API
object and overlay, per field and under the source's per-field guards, the
best locally known value (`\x7b...cached, ...override\x7d`) onto both the
canonical name and the backend alias name. -/
def mergedResponseOf (apiObj : JObj) (cachedReceipt localOverride : Option JObj) : JObj :=
  let best := spreadPair (cachedReceipt.getD []) (localOverride.getD [])
  let m0 := apiObj
  let m1 := match alookup best "payee" with
    | some v => if jtruthy v then overlayBoth m0 "payee" "merchant" v else m0
    | none => m0
  let m2 := match alookup best "date" with
    | some v => if jtruthy v then overlayBoth m1 "date" "receipt_date" v else m1
    | none => m1
  let m3 := match alookup best "total" with
    | some JValue.null => m2
    | some v => overlayBoth m2 "total" "total_amount" v
    | none => m2
  let m4 := match alookup best "vat" with
    | some JValue.null => m3
    | some v => overlayBoth m3 "vat" "vat_amount" v
    | none => m3
  let m5 := match alookup best "vatRate" with
    | some v => if jtruthy v then overlayBoth m4 "vatRate" "vat_rate" v else m4
    | none => m4
  let m6 := match alookup best "category" with
    | some v => if jtruthy v then assocSet m5 "category" v else m5
    | none => m5
  let m7 := match alookup best "notes" with
    | some v => assocSet m6 "notes" v
    | none => m6
  match alookup best "status" with
  | some v => if jtruthy v then assocSet m7 "status" v else m7
  | none => m7

/-- The load path of `fetchReceipt` for an object-shaped API response: read
the caches, build the merged payload, normalize. -/
def fetchReceiptMerge (store : OverrideStore) (cache : Cache) (receiptId : String)
    (apiObj : JObj) : Except String NormalizedReceipt :=
  normalizeReceiptResponse (JValue.obj (mergedResponseOf apiObj
    (getCachedReceipt cache receiptId) (getDraftOverride store receiptId)))

/-- The save status argument of `handleSubmit` (`'DRAFT' | 'CONFIRMED'`). -/
inductive SubmitStatus where
  | DRAFT : SubmitStatus
  | CONFIRMED : SubmitStatus
deriving DecidableEq, Repr

/-- `SubmitStatus` as the string sent in payloads. -/
def SubmitStatus.toStr : SubmitStatus → String
  | SubmitStatus.DRAFT => "DRAFT"
  | SubmitStatus.CONFIRMED => "CONFIRMED"

/-- The payload `handleSubmit` builds after validation: every save-relevant
field is set (`categoryId` is `formData.categoryId || null`). -/
structure SavePayload where
  payee : String
  date : String
  total : Frac
  vat : Frac
  vatRate : String
  categoryId : Option String
  notes : String
deriving Repr

/-- The `UpdateReceiptPayload` literal of `handleSubmit`. -/
def toUpdatePayload (stat : SubmitStatus) (p : SavePayload) : UpdateReceiptPayload :=
  { status := some stat.toStr
    payee := some p.payee
    date := some p.date
    total := some p.total
    vat := some p.vat
    vatRate := some p.vatRate
    categoryId := some p.categoryId
    notes := some p.notes }

/-- The cache patch literal of `handleSubmit`, in source key order. -/
def cacheUpdateOf (stat : SubmitStatus) (p : SavePayload) : JObj :=
  [("payee", JValue.str p.payee), ("total", JValue.num p.total), ("date", JValue.str p.date),
   ("vat", JValue.num p.vat), ("vatRate", JValue.str p.vatRate),
   ("categoryId", match p.categoryId with | some c => JValue.str c | none => JValue.null),
   ("notes", JValue.str p.notes), ("status", JValue.str stat.toStr)]

/-- The two local stores `handleSubmit` mutates. -/
structure LocalStores where
  overrides : OverrideStore
  cache : Cache
deriving Repr

/-- The save path of `handleSubmit` after validation: `await updateReceipt`
first (a failed PUT throws into the catch block, leaving both local stores
untouched); on success write the override, patch the cache, and clear the
override when the save confirmed the receipt.  `backendOk` is the outcome of
the awaited backend write. -/
def handleSubmit (backendOk : Bool) (receiptId : String) (stat : SubmitStatus)
    (p : SavePayload) (st : LocalStores) : LocalStores :=
  if backendOk then
    let afterOverride : LocalStores :=
      { st with overrides := setDraftOverride st.overrides receiptId (toUpdatePayload stat p) }
    let afterCache : LocalStores :=
      { afterOverride with
        cache := updateCachedReceipt afterOverride.cache receiptId (cacheUpdateOf stat p) }
    if stat = SubmitStatus.CONFIRMED then
      { afterCache with overrides := clearDraftOverride afterCache.overrides receiptId }
    else afterCache
  else st

/-- The canonical record `normalizeReceiptResponse` produces when every
probe comes up empty (the all-defaults record). -/
def emptyNormalized : NormalizedReceipt :=
  { id := JValue.str ""
    status := JValue.str "PENDING"
    imageUrl := none
    date := ""
    total := none
    payee := JValue.str ""
    vat := none
    vatRate := "22"
    category := JValue.str "General"
    notes := JValue.str "" }

/-- A concrete validated save payload for counterexamples/witnesses. -/
def samplePayload : SavePayload :=
  { payee := "Cafe Roma"
    date := "2025-11-14"
    total := ⟨55, 1⟩
    vat := ⟨5, 1⟩
    vatRate := "10"
    categoryId := none
    notes := "" }

/-! ## Association-list lemmas -/

theorem alookup_assocSet_self {β : Type} (l : List (String × β)) (k : String) (v : β) :
    alookup (assocSet l k v) k = some v := by
  induction l with
  | nil => simp [assocSet, alookup]
  | cons e t ih =>
    by_cases h : e.1 = k
    · simp [assocSet, h, alookup]
    · simpa [assocSet, h, alookup] using ih

theorem hasKey_assocSet_self {β : Type} (l : List (String × β)) (k : String) (v : β) :
    hasKey (assocSet l k v) k = true := by
  induction l with
  | nil => simp [assocSet, hasKey]
  | cons e t ih =>
    by_cases h : e.1 = k
    · simp [assocSet, h, hasKey]
    · simpa [assocSet, h, hasKey] using ih

theorem alookup_eraseKey_self {β : Type} (l : List (String × β)) (k : String) :
    alookup (eraseKey l k) k = none := by
  induction l with
  | nil => simp [eraseKey, alookup]
  | cons e t ih =>
    by_cases h : e.1 = k
    · simpa [eraseKey, h] using ih
    · simpa [eraseKey, h, alookup] using ih

theorem hasKey_eraseKey_self {β : Type} (l : List (String × β)) (k : String) :
    hasKey (eraseKey l k) k = false := by
  induction l with
  | nil => simp [eraseKey, hasKey]
  | cons e t ih =>
    by_cases h : e.1 = k
    · simpa [eraseKey, h] using ih
    · simpa [eraseKey, h, hasKey] using ih

/-! ## Character, trim and extraction lemmas -/

theorem digit_not_whitespace (c : Char) (h : c.isDigit = true) : c.isWhitespace = false := by
  cases hw : c.isWhitespace
  · rfl
  · exfalso
    have hw2 : c = ' ' ∨ c = '\t' ∨ c = '\r' ∨ c = '\n' := by
      simpa [Char.isWhitespace, or_assoc] using hw
    rcases hw2 with hc | hc | hc | hc <;> subst hc <;> exact absurd h (by decide)

theorem dropWhile_ws_of_all_digits (cs : List Char) (h : cs.all Char.isDigit = true) :
    cs.dropWhile Char.isWhitespace = cs := by
  cases cs with
  | nil => rfl
  | cons c t =>
    have hc : c.isDigit = true := by
      simp only [List.all_cons, Bool.and_eq_true] at h
      exact h.1
    rw [List.dropWhile_cons, digit_not_whitespace c hc]
    simp

theorem jsTrim_of_all_digits (s : String) (h : s.data.all Char.isDigit = true) :
    jsTrim s = s := by
  unfold jsTrim
  rw [dropWhile_ws_of_all_digits _ h,
    dropWhile_ws_of_all_digits _ (by simpa using h), List.reverse_reverse]

theorem data_ne_nil_of_ne_empty (s : String) (h : s ≠ "") : s.data ≠ [] := by
  intro hd
  apply h
  cases s with
  | mk d =>
    subst hd
    rfl

theorem isCleanInt_of_digits (s : String) (hne : s ≠ "")
    (h : s.data.all Char.isDigit = true) : isCleanInt s = true := by
  unfold isCleanInt
  rw [h]
  cases hd : s.data with
  | nil => exact absurd hd (data_ne_nil_of_ne_empty s hne)
  | cons c t => simp

theorem mem_jsTrim_data (s : String) (c : Char) (h : c ∈ (jsTrim s).data) : c ∈ s.data := by
  unfold jsTrim at h
  simp only [String.data] at h
  rw [List.mem_reverse] at h
  have h2 := (List.dropWhile_sublist (l := (s.data.dropWhile Char.isWhitespace).reverse)
    (p := Char.isWhitespace)).subset h
  rw [List.mem_reverse] at h2
  exact (List.dropWhile_sublist (l := s.data) (p := Char.isWhitespace)).subset h2

theorem extractNumber_ne_none_of_digit :
    ∀ cs : List Char, (∃ c ∈ cs, c.isDigit = true) → extractNumber cs ≠ none := by
  intro cs
  induction cs with
  | nil => rintro ⟨c, hc, _⟩; cases hc
  | cons a t ih =>
    rintro ⟨c, hmem, hdig⟩
    by_cases ha : a.isDigit = true
    · simp [extractNumber, ha]
    · have hm : c ∈ t := by
        rcases List.mem_cons.mp hmem with rfl | hm
        · exact absurd hdig ha
        · exact hm
      simpa [extractNumber, ha] using ih ⟨c, hm, hdig⟩

theorem vatBucket_mem (rate : Frac) : vatBucket rate ∈ ["0", "4", "5", "10", "22"] := by
  unfold vatBucket
  split_ifs <;> simp

theorem isCleanInt_trim_false_of_no_number (s : String) (h : extractNumber s.data = none) :
    isCleanInt (jsTrim s) = false := by
  cases hc : isCleanInt (jsTrim s)
  · rfl
  · exfalso
    unfold isCleanInt at hc
    rw [Bool.and_eq_true] at hc
    obtain ⟨hne2, hdig⟩ := hc
    cases hd : (jsTrim s).data with
    | nil => rw [hd] at hne2; exact absurd hne2 (by simp)
    | cons c t =>
      have hcdig : c.isDigit = true := by
        rw [hd] at hdig
        simp only [List.all_cons, Bool.and_eq_true] at hdig
        exact hdig.1
      have hcin : c ∈ s.data := mem_jsTrim_data s c (by rw [hd]; simp)
      exact extractNumber_ne_none_of_digit s.data ⟨c, hcin, hcdig⟩ h

/-! ## Claim theorems -/

/-- C9: override store laws — after `set(id, p1)` then `set(id, p2)`,
`get(id)` is exactly the stored form of `p2` (a fresh object; nothing of
`p1` or of any prior state survives); after `set` then `clear`, `get(id)` is
absent; and `clear` is idempotent. -/
theorem c9_override_store_laws :
    ∀ (st : OverrideStore) (id : String) (p1 p2 : UpdateReceiptPayload),
      getDraftOverride (setDraftOverride (setDraftOverride st id p1) id p2) id =
        some (overrideEntries p2) ∧
      getDraftOverride (clearDraftOverride (setDraftOverride st id p1) id) id = none ∧
      clearDraftOverride (clearDraftOverride st id) id = clearDraftOverride st id := by
  intro st id p1 p2
  refine ⟨alookup_assocSet_self _ _ _, ?_, ?_⟩
  · unfold clearDraftOverride setDraftOverride
    rw [hasKey_assocSet_self]
    simp only [if_true]
    exact alookup_eraseKey_self _ _
  · by_cases h : hasKey st id = true
    · simp [clearDraftOverride, h, hasKey_eraseKey_self]
    · simp [clearDraftOverride, h]

/-- C10: the list snapshot cache's patch operation never inserts — when the
receipt id has no cache entry, `updateCachedReceipt` leaves the cache
unchanged and drops the patch; when an entry exists, the patch is overlaid
field-by-field onto it. -/
theorem c10_cache_patch_never_inserts :
    ∀ (cache : Cache) (id : String) (updates : JObj),
      (getCachedReceipt cache id = none → updateCachedReceipt cache id updates = cache) ∧
      (∀ e : JObj, getCachedReceipt cache id = some e →
        getCachedReceipt (updateCachedReceipt cache id updates) id =
          some (spreadPair e updates)) := by
  intro cache id updates
  constructor
  · intro h
    unfold updateCachedReceipt
    unfold getCachedReceipt at h
    rw [h]
  · intro e h
    unfold updateCachedReceipt
    unfold getCachedReceipt at h ⊢
    rw [h]
    exact alookup_assocSet_self _ _ _

/-- Witness for C10 at concrete inputs: patching an id absent from the empty
cache is a no-op, and patching a present id overlays the entry. -/
theorem c10_cache_patch_witness :
    updateCachedReceipt [] "r1" [("total", jnum 55)] = [] ∧
    getCachedReceipt
        (updateCachedReceipt [("r1", [("total", jnum 50)])] "r1" [("total", jnum 55)]) "r1" =
      some (spreadPair [("total", jnum 50)] [("total", jnum 55)]) :=
  ⟨(c10_cache_patch_never_inserts [] "r1" [("total", jnum 55)]).1 rfl,
   (c10_cache_patch_never_inserts [("r1", [("total", jnum 50)])] "r1"
      [("total", jnum 55)]).2 [("total", jnum 50)] rfl⟩

/-- C2 counterexample: a save whose backend PUT fails leaves the override
store and the cache completely untouched — the non-empty patch (its seven
defined fields would be stored) is NOT written, contradicting the claim that
both local stores are updated regardless of the backend write's outcome. -/
theorem c2_counterexample :
    handleSubmit false "r1" SubmitStatus.DRAFT samplePayload ⟨[], []⟩ = ⟨[], []⟩ ∧
    getDraftOverride
        (handleSubmit false "r1" SubmitStatus.DRAFT samplePayload ⟨[], []⟩).overrides "r1" =
      none ∧
    (overrideEntries (toUpdatePayload SubmitStatus.DRAFT samplePayload)).length = 7 :=
  ⟨rfl, rfl, by decide⟩

/-- C2 (amended): local-store updates happen only on a save whose backend
PUT succeeds — a failed PUT leaves both stores unchanged; on a successful
DRAFT save the override holds the new patch and the cache entry is patched
in place; on a successful CONFIRMED save the cache is patched the same way
and the override is cleared afterwards. -/
theorem c2_save_updates_stores :
    ∀ (id : String) (stat : SubmitStatus) (p : SavePayload) (st : LocalStores),
      handleSubmit false id stat p st = st ∧
      getDraftOverride (handleSubmit true id SubmitStatus.DRAFT p st).overrides id =
        some (overrideEntries (toUpdatePayload SubmitStatus.DRAFT p)) ∧
      getDraftOverride (handleSubmit true id SubmitStatus.CONFIRMED p st).overrides id = none ∧
      (handleSubmit true id stat p st).cache =
        updateCachedReceipt st.cache id (cacheUpdateOf stat p) := by
  intro id stat p st
  refine ⟨rfl, ?_, ?_, ?_⟩
  · simp only [handleSubmit, if_true, reduceCtorEq, if_false]
    exact alookup_assocSet_self _ _ _
  · simp only [handleSubmit, if_true, if_pos rfl]
    unfold clearDraftOverride setDraftOverride getDraftOverride
    rw [hasKey_assocSet_self]
    simp only [if_true]
    exact alookup_eraseKey_self _ _
  · cases stat <;> rfl

/-- C4 counterexample: an empty-array input does NOT raise `InvalidRecord` —
`typeof [] === 'object'` and `[]` is truthy, so the guard passes and the
all-defaults record is returned, contradicting the claim that an empty-array
input raises. -/
theorem c4_counterexample :
    normalizeReceiptResponse (JValue.arr []) = Except.ok emptyNormalized := rfl

/-- C4 (amended): `normalizeReceiptResponse` raises exactly when its input,
after reducing a non-empty array to its first element, is neither an object
nor an array (`null`, strings, numbers and booleans raise); an empty array
passes the object check and yields a record without raising. -/
theorem c4_invalid_iff_not_object :
    ∀ response : JValue,
      (normalizeReceiptResponse response).isOk = false ↔
        objectLike (arrayFirst response) = false := by
  intro response
  unfold normalizeReceiptResponse
  cases h : objectLike (arrayFirst response) <;> simp [h, Except.isOk, Except.toBool]

/-- C1: the spec's stale-read scenario, for every alias the fresh backend
record may use for the total — list cache holds `total: 50`, the local
override holds `total: 55`, the fresh backend read carries `48` under any
one of the total candidate names; the merged payload puts the override's
`55` on both `total` and `total_amount`, and the normalized canonical total
is `55` (override wins over cache and over the stale backend read). -/
theorem c1_override_wins_merge :
    ∀ aliasName ∈ ("total" :: totalAliases),
      (fetchReceiptMerge [("X", [("total", jnum 55)])] [("X", [("total", jnum 50)])] "X"
          [(aliasName, jnum 48)]).map (fun r => r.total) =
        Except.ok (some (Frac.ofInt 55)) := by
  intro aliasName h
  fin_cases h <;> rfl

/-- Witness for C1 at the alias the scenario names (`total_amount`). -/
theorem c1_override_wins_merge_witness :
    "total_amount" ∈ ("total" :: totalAliases) ∧
    (fetchReceiptMerge [("X", [("total", jnum 55)])] [("X", [("total", jnum 50)])] "X"
        [("total_amount", jnum 48)]).map (fun r => r.total) =
      Except.ok (some (Frac.ofInt 55)) :=
  ⟨by decide, c1_override_wins_merge "total_amount" (by decide)⟩

/-- C6: the field-extraction loop probes candidate names in order and
returns the first value that is neither `undefined`, `null` (both appear as
`getNestedValue` returning `none`) nor the empty string — whenever every
earlier candidate holds only `null`/`undefined`/`''`, the later candidate's
non-empty value is returned; and when every candidate is empty the probe
silently yields `undefined`. -/
theorem c6_first_nonempty_candidate_wins :
    ∀ payload : JValue,
      (∀ (earlier later : List String) (c : String) (v : JValue),
        (∀ n ∈ earlier, getNestedValue payload [n] = none ∨
          getNestedValue payload [n] = some (JValue.str "")) →
        getNestedValue payload [c] = some v → v ≠ JValue.str "" →
        scanNames payload (earlier ++ c :: later) = some v) ∧
      (∀ names : List String,
        (∀ n ∈ names, getNestedValue payload [n] = none ∨
          getNestedValue payload [n] = some (JValue.str "")) →
        scanNames payload names = none) := by
  intro payload
  constructor
  · intro earlier later c v hearlier hc hne
    induction earlier with
    | nil =>
      simp only [List.nil_append, scanNames]
      rw [hc]
      have : isEmptyStrVal v = false := by
        cases v with
        | str s =>
          by_cases hs : s = ""
          · exact absurd (hs ▸ rfl) hne
          · simp [isEmptyStrVal, hs]
        | null => rfl
        | bool b => rfl
        | num q => rfl
        | obj fs => rfl
        | arr xs => rfl
      simp [this]
    | cons n rest ih =>
      have hn := hearlier n (by simp)
      have hrest : ∀ m ∈ rest, getNestedValue payload [m] = none ∨
          getNestedValue payload [m] = some (JValue.str "") := by
        intro m hm
        exact hearlier m (by simp [hm])
      simp only [List.cons_append, scanNames]
      rcases hn with hn | hn
      · rw [hn]
        exact ih hrest
      · rw [hn]
        simpa [isEmptyStrVal] using ih hrest
  · intro names hnames
    induction names with
    | nil => rfl
    | cons n rest ih =>
      have hn := hnames n (by simp)
      have hrest : ∀ m ∈ rest, getNestedValue payload [m] = none ∨
          getNestedValue payload [m] = some (JValue.str "") := by
        intro m hm
        exact hnames m (by simp [hm])
      simp only [scanNames]
      rcases hn with hn | hn
      · rw [hn]
        exact ih hrest
      · rw [hn]
        simpa [isEmptyStrVal] using ih hrest

/-- Witness for C6 at a concrete payload: `a` holds `null`, `b` holds `''`,
so the later candidate `c` supplies the value. -/
theorem c6_first_nonempty_candidate_witness :
    scanNames (JValue.obj [("a", JValue.null), ("b", JValue.str ""), ("c", JValue.str "hit")])
        (["a", "b"] ++ "c" :: ["d"]) = some (JValue.str "hit") :=
  (c6_first_nonempty_candidate_wins _).1 ["a", "b"] ["d"] "c" (JValue.str "hit")
    (by
      intro n hn
      fin_cases hn
      · left; rfl
      · right; rfl)
    rfl
    (by simp)

/-- C3: field resolution inside `normalizeReceiptResponse` is per-field with
source precedence confirmed → draft → root → extracted: whenever a field's
candidate names resolve to a non-empty value in a higher-precedence section,
`getField` returns exactly that value, whatever the lower-precedence
sections (and the rest of the payload) contain. -/
theorem c3_source_precedence :
    ∀ (o : JValue) (fieldName : String) (altNames : List String) (v : JValue),
      (sectionScan (confirmedFieldsOf o) (fieldName :: altNames) = some v →
        getFieldIn o fieldName altNames = some v) ∧
      (sectionScan (confirmedFieldsOf o) (fieldName :: altNames) = none →
       sectionScan (draftFieldsOf o) (fieldName :: altNames) = some v →
        getFieldIn o fieldName altNames = some v) ∧
      (sectionScan (confirmedFieldsOf o) (fieldName :: altNames) = none →
       sectionScan (draftFieldsOf o) (fieldName :: altNames) = none →
       scanNames o (fieldName :: altNames) = some v →
        getFieldIn o fieldName altNames = some v) := by
  intro o fieldName altNames v
  refine ⟨?_, ?_, ?_⟩
  · intro hc
    simp only [getFieldIn, getField, hc]
  · intro hc hd
    simp only [getFieldIn, getField, hc, hd]
  · intro hc hd hr
    simp only [getFieldIn, getField, hc, hd, hr]

/-- Witness for C3 at a concrete payload where the confirmed section and the
extracted section disagree about `payee`: the confirmed value is returned. -/
theorem c3_source_precedence_witness :
    getFieldIn (JValue.obj [("confirmed", JValue.obj [("payee", JValue.str "Acme")]),
        ("extracted", JValue.obj [("payee", JValue.str "Other")])]) "payee" payeeAliases =
      some (JValue.str "Acme") :=
  (c3_source_precedence _ "payee" payeeAliases (JValue.str "Acme")).1 rfl

/-- C7 counterexample: on the empty payload no source yields any category,
yet the normalized category is `'General'`, not the empty string the claim
assigns to string fields. -/
theorem c7_counterexample :
    (normalizeReceiptResponse (JValue.obj [])).map (fun r => r.category) =
      Except.ok (JValue.str "General") ∧
    JValue.str "General" ≠ JValue.str "" :=
  ⟨rfl, by simp⟩

/-- C7 (amended): when no source yields a non-empty value for a field,
`normalizeReceiptResponse` assigns the field its default — the empty string
for `payee`, `date` and `notes`, `null` for `total` and `vat`, `"22"` for
`vatRate`, `"PENDING"` for `status`, and `"General"` (not the empty string)
for `category`. -/
theorem c7_defaults_when_unresolved :
    ∀ (response : JValue) (r : NormalizedReceipt),
      normalizeReceiptResponse response = Except.ok r →
      (getFieldIn (arrayFirst response) "payee" payeeAliases = none →
        r.payee = JValue.str "") ∧
      (getFieldIn (arrayFirst response) "date" dateAliases = none → r.date = "") ∧
      (getFieldIn (arrayFirst response) "total" totalAliases = none → r.total = none) ∧
      (getFieldIn (arrayFirst response) "vat" vatAliases = none → r.vat = none) ∧
      (getFieldIn (arrayFirst response) "vatRate" vatRateAliases = none → r.vatRate = "22") ∧
      (getFieldIn (arrayFirst response) "category" categoryAliases = none →
        r.category = JValue.str "General") ∧
      (getFieldIn (arrayFirst response) "notes" notesAliases = none →
        r.notes = JValue.str "") ∧
      (getNestedValue (arrayFirst response) ["status", "receiptStatus"] = none →
        r.status = JValue.str "PENDING") := by
  intro response r h
  simp only [normalizeReceiptResponse] at h
  split at h
  · rw [Except.ok.injEq] at h
    subst h
    refine ⟨?_, ?_, ?_, ?_, ?_, ?_, ?_, ?_⟩ <;> intro hf <;>
      simp [hf, jor, formatDate, parseNumber, parseVatRate, strOrElse]
  · exact Except.noConfusion h

/-- Witness for C7 at the empty payload, where every probe hypothesis holds
definitionally: the defaults for date, vatRate and category follow from the
theorem applied to the all-defaults record. -/
theorem c7_defaults_witness :
    emptyNormalized.date = "" ∧ emptyNormalized.vatRate = "22" ∧
    emptyNormalized.category = JValue.str "General" :=
  have h := c7_defaults_when_unresolved (JValue.obj []) emptyNormalized rfl
  ⟨h.2.1 rfl, h.2.2.2.2.1 rfl, h.2.2.2.2.2.1 rfl⟩

/-- C8: the VAT-rate bucketer returns a plain integer-like string verbatim
without re-bucketing (`"22" ↦ "22"`, `"3" ↦ "3"`); for free text it extracts
the first numeric token and snaps it by the thresholds `≤2 → "0"`,
`≤4.5 → "4"`, `≤7 → "5"`, `≤15 → "10"`, else `"22"` (`"A 22.00%" ↦ "22"`);
and it returns the empty string when no numeric token is found. -/
theorem c8_vat_bucketer :
    (∀ s : String, s ≠ "" → s.data.all Char.isDigit = true →
      parseVatRate (some (JValue.str s)) = s) ∧
    parseVatRate (some (JValue.str "22")) = "22" ∧
    parseVatRate (some (JValue.str "3")) = "3" ∧
    parseVatRate (some (JValue.str "A 22.00%")) = "22" ∧
    (∀ s : String, extractNumber s.data = none → parseVatRate (some (JValue.str s)) = "") ∧
    (∀ (s : String) (rate : Frac), isCleanInt (jsTrim s) = false →
      extractNumber s.data = some rate →
      parseVatRate (some (JValue.str s)) =
        if Frac.ble rate (Frac.ofNat 2) then "0"
        else if Frac.ble rate ⟨9, 2⟩ then "4"
        else if Frac.ble rate (Frac.ofNat 7) then "5"
        else if Frac.ble rate (Frac.ofNat 15) then "10"
        else "22") := by
  refine ⟨?_, by decide, by decide, by decide, ?_, ?_⟩
  · intro s hne h
    have ht := jsTrim_of_all_digits s h
    have hci : isCleanInt s = true := isCleanInt_of_digits s hne h
    simp [parseVatRate, jtruthy, hne, hci, ht]
  · intro s h
    by_cases hne : s = ""
    · subst hne; rfl
    · have hci := isCleanInt_trim_false_of_no_number s h
      simp [parseVatRate, jtruthy, hne, hci, h]
  · intro s rate hci hext
    have hne : s ≠ "" := by
      intro he
      subst he
      exact Option.noConfusion ((rfl : extractNumber ("" : String).data = none) ▸ hext)
    simp [parseVatRate, jtruthy, hne, hci, hext, vatBucket]

/-- Witness for C8 at concrete inputs: a clean integer string passes
through, a token-free string yields `''`, and a free-text token is snapped
through the threshold chain. -/
theorem c8_vat_bucketer_witness :
    parseVatRate (some (JValue.str "12")) = "12" ∧
    parseVatRate (some (JValue.str "xyz")) = "" ∧
    parseVatRate (some (JValue.str "8%")) =
      (if Frac.ble ⟨8, 1⟩ (Frac.ofNat 2) then "0"
       else if Frac.ble ⟨8, 1⟩ ⟨9, 2⟩ then "4"
       else if Frac.ble ⟨8, 1⟩ (Frac.ofNat 7) then "5"
       else if Frac.ble ⟨8, 1⟩ (Frac.ofNat 15) then "10"
       else "22") :=
  ⟨c8_vat_bucketer.1 "12" (by decide) (by decide),
   c8_vat_bucketer.2.2.2.2.1 "xyz" (by decide),
   c8_vat_bucketer.2.2.2.2.2 "8%" ⟨8, 1⟩ (by decide) (by decide)⟩

/-- C5 counterexample: a payload whose `vatRate` is the clean integer string
`"3"` normalizes to `vatRate = "3"`, which is outside the claimed closed
bucket set. -/
theorem c5_counterexample :
    (normalizeReceiptResponse (JValue.obj [("vatRate", JValue.str "3")])).map
        (fun r => r.vatRate) = Except.ok "3" ∧
    "3" ∉ ["0", "4", "5", "10", "22"] :=
  ⟨rfl, by decide⟩

/-- C5 (amended): the normalized `vatRate` is `"22"` whenever no source
yields a resolvable VAT-rate value, and free-text values (strings that are
not clean integer strings) parse into the closed set — but clean integer
strings (and numbers) pass through verbatim, so `vatRate` need not lie in
`{"0","4","5","10","22"}`. -/
theorem c5_vat_rate_default_and_buckets :
    ∀ (response : JValue) (r : NormalizedReceipt),
      normalizeReceiptResponse response = Except.ok r →
      (parseVatRate (getFieldIn (arrayFirst response) "vatRate" vatRateAliases) = "" →
        r.vatRate = "22") ∧
      (∀ s : String, isCleanInt (jsTrim s) = false →
        parseVatRate (some (JValue.str s)) ∈ ["", "0", "4", "5", "10", "22"]) := by
  intro response r h
  constructor
  · intro hempty
    simp only [normalizeReceiptResponse] at h
    split at h
    · rw [Except.ok.injEq] at h
      subst h
      simp [hempty, strOrElse]
    · exact Except.noConfusion h
  · intro s hci
    by_cases hne : s = ""
    · subst hne; simp [parseVatRate, jtruthy]
    · simp only [parseVatRate, jtruthy]
      rw [if_neg hne]
      simp only [if_pos rfl, hci, Bool.false_eq_true, if_false]
      cases hext : extractNumber s.data with
      | none => simp
      | some rate =>
        have := vatBucket_mem rate
        simp_all

/-- Witness for C5: the 'unresolved' path of the empty payload defaults to
`"22"`, and the free-text path stays inside the bucket set. -/
theorem c5_vat_rate_witness :
    emptyNormalized.vatRate = "22" ∧
    parseVatRate (some (JValue.str "A 22.00%")) ∈ ["", "0", "4", "5", "10", "22"] :=
  have h := c5_vat_rate_default_and_buckets (JValue.obj []) emptyNormalized rfl
  ⟨h.1 rfl, h.2 "A 22.00%" (by decide)⟩

end Receipts
